import Mathlib

/-!
Shallow embedding of the live-operations core of the ReedOut repository
(telemetry collector, cron scheduler, console bridge), with theorems checking
the natural-language specification against the code.

Sources embedded:
- `internal/scheduler/scheduler.go` (cron parsing/matching, tick, execute)
- the stats collector file (`package stats`): channels, fan-out, Start/Stop,
  collect, calculateCPUPercent
- `internal/api/console.go` (non-TTY log stream demultiplexing)

Go machine integers are modelled as `Nat`/`Int` with explicit wraparound
(`% 2^64`) where the source relies on it; Go `float64` arithmetic in
`calculateCPUPercent` is modelled over `ℚ` (exact field arithmetic); fallible
Go functions returning `(T, error)` are modelled as `Except String T` with the
source's `fmt.Errorf` message strings reproduced.
-/

namespace ReedOut

/-! ## Cron evaluator (internal/scheduler/scheduler.go, cron half) -/

namespace Cron

/-- Accumulator for a run of ASCII digits, as consumed by Go `strconv.Atoi`. -/
def digitsValAux : List Char → Nat → Option Nat
  | [], acc => some acc
  | c :: cs, acc =>
      if c.isDigit then digitsValAux cs (acc * 10 + (c.toNat - 48)) else none

/-- Go `strconv.Atoi`: optional sign followed by one or more ASCII digits;
anything else is an error (`none`). -/
def atoi : List Char → Option Int
  | [] => none
  | '+' :: rest =>
      if rest = [] then none else (digitsValAux rest 0).map Int.ofNat
  | '-' :: rest =>
      if rest = [] then none else (digitsValAux rest 0).map (fun n => -(n : Int))
  | cs => (digitsValAux cs 0).map Int.ofNat

/-- Go `strings.Split(s, sep)` for a one-character separator: empty pieces are
kept, and splitting the empty string yields one empty piece. -/
def splitChar (sep : Char) : List Char → List (List Char)
  | [] => [[]]
  | c :: cs =>
      if c = sep then [] :: splitChar sep cs
      else
        match splitChar sep cs with
        | [] => [[c]]
        | r :: rs => (c :: r) :: rs

/-- Go `strings.SplitN(s, sep, 2)` for a one-character separator: split at the
first occurrence only; one piece if the separator is absent. -/
def splitN2 (sep : Char) : List Char → List (List Char)
  | [] => [[]]
  | c :: cs =>
      if c = sep then [[], cs]
      else
        match splitN2 sep cs with
        | [] => [[c]]
        | r :: rs => (c :: r) :: rs

/-- Go `strings.Fields`: split on whitespace, dropping empty pieces. -/
def goFields (cs : List Char) : List (List Char) :=
  (splitChar ' ' cs).filter (fun f => !f.isEmpty)

/-- The loop `for i := lo; i <= hi; i += step`, run on fuel.  Every call site
guards `step > 0`, for which `(hi + 1 - lo).toNat` iterations always suffice
(each iteration advances `i` by at least 1). -/
def rangeValsGo (hi step : Int) : Nat → Int → List Int
  | 0, _ => []
  | fuel + 1, i =>
      if i ≤ hi then i :: rangeValsGo hi step fuel (i + step) else []

/-- Values produced by the Go loop `for i := lo; i <= hi; i += step`. -/
def rangeVals (lo hi step : Int) : List Int :=
  rangeValsGo hi step (hi + 1 - lo).toNat lo

/-- String of a character list (for reproducing `fmt.Errorf` messages). -/
def strOf (cs : List Char) : String := String.mk cs

/-- `parsePart` from scheduler.go: one cron field part, one of `*`, `*/step`,
`a-b`, `a-b/step`, or a single integer.  Error strings reproduce the source's
`fmt.Errorf` formats. -/
def parsePart (part : List Char) (lo hi : Int) : Except String (List Int) :=
  if part.take 2 = ['*', '/'] then
    match atoi (part.drop 2) with
    | none => .error ("invalid step: " ++ strOf part)
    | some step =>
        if step ≤ 0 then .error ("invalid step: " ++ strOf part)
        else .ok (rangeVals lo hi step)
  else if part = ['*'] then
    .ok (rangeVals lo hi 1)
  else if part.contains '-' then
    let rangeParts := splitN2 '/' part
    match splitN2 '-' (rangeParts.headD []) with
    | [b0, b1] =>
        match atoi b0 with
        | none => .error ("invalid range start: " ++ strOf b0)
        | some l =>
            match atoi b1 with
            | none => .error ("invalid range end: " ++ strOf b1)
            | some h =>
                match rangeParts with
                | [_, stepStr] =>
                    match atoi stepStr with
                    | none => .error ("invalid step: " ++ strOf stepStr)
                    | some st =>
                        if st ≤ 0 then .error ("invalid step: " ++ strOf stepStr)
                        else .ok (rangeVals l h st)
                | _ => .ok (rangeVals l h 1)
    | _ => .error ("invalid range: " ++ strOf part)
  else
    match atoi part with
    | none => .error ("invalid value: " ++ strOf part)
    | some v =>
        if v < lo ∨ v > hi then
          .error ("value " ++ toString v ++ " out of range " ++
            toString lo ++ "-" ++ toString hi)
        else .ok [v]

/-- The comma-separated loop body of `parseField`. -/
def parseParts (parts : List (List Char)) (lo hi : Int) : Except String (List Int) :=
  match parts with
  | [] => .ok []
  | p :: ps => do
      let vs ← parsePart p lo hi
      let rest ← parseParts ps lo hi
      .ok (vs ++ rest)

/-- `parseField` from scheduler.go: a comma-separated list of parts. -/
def parseField (field : List Char) (lo hi : Int) : Except String (List Int) :=
  parseParts (splitChar ',' field) lo hi

/-- `CronExpr` from scheduler.go. -/
structure CronExpr where
  Minutes : List Int
  Hours : List Int
  DaysOfMonth : List Int
  Months : List Int
  DaysOfWeek : List Int
deriving DecidableEq, Repr

/-- Prefix an error message, as `fmt.Errorf("... field: %w", err)` does. -/
def wrapErr (pre : String) : Except String α → Except String α
  | .ok a => .ok a
  | .error e => .error (pre ++ e)

/-- `ParseCron` from scheduler.go: a standard 5-field cron expression. -/
def ParseCron (expr : String) : Except String CronExpr :=
  match goFields expr.data with
  | [f0, f1, f2, f3, f4] => do
      let minutes ← wrapErr "minute field: " (parseField f0 0 59)
      let hours ← wrapErr "hour field: " (parseField f1 0 23)
      let doms ← wrapErr "day-of-month field: " (parseField f2 1 31)
      let months ← wrapErr "month field: " (parseField f3 1 12)
      let dows ← wrapErr "day-of-week field: " (parseField f4 0 6)
      .ok ⟨minutes, hours, doms, months, dows⟩
  | fs => .error ("cron expression must have 5 fields, got " ++ toString fs.length)

/-- The calendar components Go's `t.Minute()`, `t.Hour()`, `t.Day()`,
`t.Month()`, `t.Weekday()` expose of a `time.Time`. -/
structure GoTime where
  Minute : Int
  Hour : Int
  Day : Int
  Month : Int
  Weekday : Int
deriving DecidableEq, Repr

/-- `contains` from scheduler.go: linear membership scan. -/
def containsInt : List Int → Int → Bool
  | [], _ => false
  | v :: vs, x => if v = x then true else containsInt vs x

/-- `CronExpr.Matches` from scheduler.go: AND of the five field memberships. -/
def CronExpr.Matches (c : CronExpr) (t : GoTime) : Bool :=
  containsInt c.Minutes t.Minute &&
  containsInt c.Hours t.Hour &&
  containsInt c.DaysOfMonth t.Day &&
  containsInt c.Months t.Month &&
  containsInt c.DaysOfWeek t.Weekday

end Cron

/-! ## Stats collector (`package stats`) -/

namespace Stats

/-- The fields of `dockerStatsJSON.cpu_stats` that `calculateCPUPercent` reads
(`cpu_usage.total_usage`, `system_cpu_usage`, `online_cpus`), each a Go
`uint64` modelled as a `Nat` below `2^64`. -/
structure CpuStats where
  TotalUsage : Nat
  SystemCPUUsage : Nat
  OnlineCPUs : Nat
deriving DecidableEq, Repr

/-- The part of `dockerStatsJSON` that `calculateCPUPercent` reads:
`cpu_stats` (current cumulative counters) and `precpu_stats` (previous). -/
structure DockerStatsJSON where
  CPUStats : CpuStats
  PreCPUStats : CpuStats
deriving DecidableEq, Repr

/-- Go `uint64` subtraction `a - b`: wraparound modulo `2^64`
(for `a, b < 2^64` this is `(a - b) mod 2^64`). -/
def u64sub (a b : Nat) : Nat := (a % 2 ^ 64 + (2 ^ 64 - b % 2 ^ 64)) % 2 ^ 64

/-- `calculateCPUPercent` from the stats collector, with Go `float64`
arithmetic modelled over `ℚ`.  The deltas come from `uint64` subtraction of
the cumulative counters, so they are never negative: the guard
`systemDelta <= 0 || cpuDelta <= 0` fires exactly when a delta is zero. -/
def calculateCPUPercent (stats : DockerStatsJSON) : ℚ :=
  let cpuDelta : ℚ := (u64sub stats.CPUStats.TotalUsage stats.PreCPUStats.TotalUsage : Nat)
  let systemDelta : ℚ := (u64sub stats.CPUStats.SystemCPUUsage stats.PreCPUStats.SystemCPUUsage : Nat)
  if systemDelta ≤ 0 ∨ cpuDelta ≤ 0 then 0
  else
    let cpus : ℚ := if (stats.CPUStats.OnlineCPUs : ℚ) = 0 then 1 else (stats.CPUStats.OnlineCPUs : ℚ)
    cpuDelta / systemDelta * cpus * 100

/-- A subscriber conduit: `make(chan *Stats, 1)`, a single buffered slot.
`none` is an empty slot. -/
def newConduit {α : Type} : Option α := none

/-- The non-blocking send `select { case ch <- stats: default: }` on a
capacity-1 channel: fills an empty slot; leaves an occupied slot unchanged
(the new value is dropped). -/
def trySend (ch : Option α) (x : α) : Option α :=
  match ch with
  | none => some x
  | some y => some y

/-- The value a receive from the conduit would yield (`none`: would block). -/
def recvFrom (ch : Option α) : Option α := ch

/-- The fan-out loop in `collect`: one non-blocking send per registered
listener conduit. -/
def fanOut (listeners : List (Option α)) (x : α) : List (Option α) :=
  listeners.map (fun ch => trySend ch x)

/-- A row of the `servers` table as read by the collector's query and by the
scheduler's join/updates: id, runtime handle, lifecycle state. -/
structure Server where
  id : String
  containerID : String
  status : String
deriving DecidableEq, Repr

/-- The collector's query
`SELECT id, container_id FROM servers WHERE status = 'running' AND container_id != ''`. -/
def collectTargets (servers : List Server) : List Server :=
  servers.filter (fun s => s.status == "running" && s.containerID != "")

/-- The per-target loop of `Collector.collect`: fetch a stats sample for each
queried target (`fetch` abstracts `fetchStats`; `none` is a fetch error, which
is logged and skipped).  Each returned pair is exactly one sample that the
tick persists, caches, and fans out. -/
def collectSamples (fetch : String → String → Option α) (servers : List Server) :
    List (String × α) :=
  (collectTargets servers).filterMap
    (fun s => (fetch s.id s.containerID).map (fun st => (s.id, st)))

/-- The background-loop bookkeeping of `Collector.Start`/`Collector.Stop`:
`loops` are the identities of the polling goroutines currently running,
`cancelTok` the cancel function currently stored in `c.cancel` (it stops
exactly the loop it was created with), `nextTok` a fresh identity. -/
structure LoopState where
  loops : List Nat
  cancelTok : Option Nat
  nextTok : Nat
deriving DecidableEq, Repr

/-- `Collector.Start`: unconditionally creates a fresh cancellable context,
overwrites `c.cancel`, and spawns one more polling goroutine.  There is no
already-started guard in the source. -/
def Start (s : LoopState) : LoopState :=
  { loops := s.loops ++ [s.nextTok]
    cancelTok := some s.nextTok
    nextTok := s.nextTok + 1 }

/-- `Collector.Stop`: calls the stored cancel function, if any; this stops
only the loop that cancel function belongs to. -/
def Stop (s : LoopState) : LoopState :=
  match s.cancelTok with
  | none => s
  | some t => { s with loops := s.loops.filter (fun l => l ≠ t) }

/-- A collector that has never been started. -/
def initLoopState : LoopState := ⟨[], none, 0⟩

end Stats

/-! ## Scheduler state (internal/scheduler/scheduler.go, tick/execute half) -/

namespace Sched

open Cron Stats

/-- Which lifecycle/backup calls succeed, abstracting the docker client and
backup service (`StartContainer`/`StopContainer`/`RestartContainer` keyed by
container id, `backup.Create` keyed by server id). -/
structure DockerOutcome where
  startOk : String → Bool
  stopOk : String → Bool
  restartOk : String → Bool
  backupOk : String → Bool

/-- `UPDATE servers SET status = st WHERE id = sid`. -/
def setStatus (servers : List Server) (sid st : String) : List Server :=
  servers.map (fun s => if s.id == sid then { s with status := st } else s)

/-- `Scheduler.execute`: dispatch one action; on lifecycle success record the
resulting state against the server; on error (or for `backup`, or for an
unknown action) leave the servers table unchanged.  Errors are logged and
never returned: the function is total and produces only the new table. -/
def execute (o : DockerOutcome) (action sid cid : String) (servers : List Server) :
    List Server :=
  match action with
  | "start" => if o.startOk cid then setStatus servers sid "running" else servers
  | "stop" => if o.stopOk cid then setStatus servers sid "exited" else servers
  | "restart" => if o.restartOk cid then setStatus servers sid "running" else servers
  | "backup" => servers
  | _ => servers

/-- A row of the `schedules` table as the scheduler reads and stamps it. -/
structure SchedRow where
  id : String
  serverID : String
  cronExpr : String
  action : String
  enabled : Bool
  lastRun : Option GoTime
deriving DecidableEq, Repr

/-- The two tables `Scheduler.tick` touches. -/
structure DB where
  servers : List Server
  schedules : List SchedRow
deriving DecidableEq, Repr

/-- One row of the tick query
`SELECT s.id, s.server_id, s.cron_expr, s.action, srv.container_id FROM
schedules s JOIN servers srv ON s.server_id = srv.id WHERE s.enabled = 1`. -/
structure Job where
  scheduleID : String
  serverID : String
  cronExpr : String
  action : String
  containerID : String
deriving DecidableEq, Repr

/-- The tick query: enabled schedules joined with their server's container id. -/
def tickJobs (db : DB) : List Job :=
  (db.schedules.filter (fun sch => sch.enabled)).flatMap
    (fun sch =>
      (db.servers.filter (fun srv => srv.id == sch.serverID)).map
        (fun srv => ⟨sch.id, sch.serverID, sch.cronExpr, sch.action, srv.containerID⟩))

/-- The body of the job loop in `Scheduler.tick` for one job: parse the cron
expression (a parse error is logged and the job skipped), test it against
`now`, and if it matches run `execute` and then unconditionally
`UPDATE schedules SET last_run = now WHERE id = scheduleID`. -/
def tickStep (o : DockerOutcome) (now : GoTime) (acc : DB) (j : Job) : DB :=
  match ParseCron j.cronExpr with
  | .error _ => acc
  | .ok cron =>
      if cron.Matches now then
        { servers := execute o j.action j.serverID j.containerID acc.servers
          schedules := acc.schedules.map
            (fun sch => if sch.id == j.scheduleID then { sch with lastRun := some now } else sch) }
      else acc

/-- `Scheduler.tick`: query the jobs once, then process them in order.
The function is total: no error is returned to any caller. -/
def tick (o : DockerOutcome) (now : GoTime) (db : DB) : DB :=
  (tickJobs db).foldl (tickStep o now) db

end Sched

/-! ## Console bridge, non-TTY outbound pump (internal/api/console.go) -/

namespace Console

/-- `binary.BigEndian.Uint32(header[4:8])`. -/
def bigEndian4 (b0 b1 b2 b3 : Nat) : Nat :=
  ((b0 * 256 + b1) * 256 + b2) * 256 + b3

/-- The non-TTY branch of `ConsoleHandler.Handle`'s log pump, as a function of
the whole byte stream: repeatedly `io.ReadFull` an 8-byte header
`[streamType 1][reserved 3][size 4 big-endian]`, skip if `size == 0`,
`io.ReadFull` `size` payload bytes, forward the payload as one message.
Returns the forwarded messages in order, paired with `true` when the pump
ended at clean end-of-stream (a read that got 0 bytes, `io.EOF`, which is not
logged as an error) and `false` when a read got a strict prefix of what it
needed (`io.ErrUnexpectedEOF`, logged as an error).  Either way the pump ends. -/
def pumpNonTTY : List Nat → List (List Nat) × Bool
  | [] => ([], true)
  | _ :: _ :: _ :: _ :: b4 :: b5 :: b6 :: b7 :: rest =>
      let size := bigEndian4 b4 b5 b6 b7
      if size = 0 then pumpNonTTY rest
      else if rest.length < size then ([], rest.isEmpty)
      else
        let res := pumpNonTTY (rest.drop size)
        (rest.take size :: res.1, res.2)
  | _ => ([], false)
termination_by s => s.length
decreasing_by
  · simp; omega
  · simp [List.length_drop]; omega

/-- The 8-byte header plus payload of one frame of the multiplexed stream
(payload length below `2^32` encoded big-endian in bytes 4-7). -/
def encodeFrame (streamType : Nat) (payload : List Nat) : List Nat :=
  let n := payload.length
  [streamType, 0, 0, 0,
   n / 2 ^ 24 % 256, n / 2 ^ 16 % 256, n / 2 ^ 8 % 256, n % 256] ++ payload

/-- A well-formed multiplexed stream: a concatenation of frames. -/
def encodeFrames : List (Nat × List Nat) → List Nat
  | [] => []
  | (t, p) :: fs => encodeFrame t p ++ encodeFrames fs

/-- The payloads a correct demultiplexer forwards: every non-empty payload,
in stream order. -/
def nonEmptyPayloads (fs : List (Nat × List Nat)) : List (List Nat) :=
  (fs.map Prod.snd).filter (fun p => !p.isEmpty)

end Console

/-! ## Helper lemmas -/

instance {ε α : Type} [DecidableEq ε] [DecidableEq α] : DecidableEq (Except ε α) :=
  fun x y =>
    match x, y with
    | .ok a, .ok b => decidable_of_iff (a = b) (by simp)
    | .error a, .error b => decidable_of_iff (a = b) (by simp)
    | .ok _, .error _ => isFalse (by simp)
    | .error _, .ok _ => isFalse (by simp)

namespace Cron

theorem containsInt_iff (vs : List Int) (x : Int) : containsInt vs x = true ↔ x ∈ vs := by
  induction vs with
  | nil => simp [containsInt]
  | cons v vs ih =>
      rw [containsInt]
      by_cases h : v = x
      · subst h; simp
      · rw [if_neg h, ih, List.mem_cons]
        constructor
        · exact Or.inr
        · rintro (rfl | hx)
          · exact absurd rfl h
          · exact hx

theorem rangeValsGo_bounds (hi step : Int) (hstep : 0 < step) :
    ∀ (fuel : Nat) (i x : Int), x ∈ rangeValsGo hi step fuel i → i ≤ x ∧ x ≤ hi := by
  intro fuel
  induction fuel with
  | zero => intro i x hx; simp [rangeValsGo] at hx
  | succ n ih =>
      intro i x hx
      rw [rangeValsGo] at hx
      by_cases hle : i ≤ hi
      · rw [if_pos hle] at hx
        rcases List.mem_cons.mp hx with rfl | hx
        · exact ⟨le_refl x, hle⟩
        · have := ih (i + step) x hx
          constructor <;> omega
      · rw [if_neg hle] at hx
        simp at hx

theorem rangeVals_bounds (lo hi step x : Int) (hstep : 0 < step)
    (hx : x ∈ rangeVals lo hi step) : lo ≤ x ∧ x ≤ hi :=
  rangeValsGo_bounds hi step hstep _ lo x hx

theorem rangeValsGo_mem_one (hi : Int) :
    ∀ (fuel : Nat) (i x : Int),
      x ∈ rangeValsGo hi 1 fuel i ↔ i ≤ x ∧ x ≤ hi ∧ x < i + fuel := by
  intro fuel
  induction fuel with
  | zero => intro i x; simp [rangeValsGo]; omega
  | succ n ih =>
      intro i x
      rw [rangeValsGo]
      by_cases hle : i ≤ hi
      · rw [if_pos hle]
        simp only [List.mem_cons, ih (i + 1) x]
        omega
      · rw [if_neg hle]
        simp
        omega

theorem mem_rangeVals_one (lo hi x : Int) :
    x ∈ rangeVals lo hi 1 ↔ lo ≤ x ∧ x ≤ hi := by
  rw [rangeVals, rangeValsGo_mem_one]
  omega

/-- Within-bounds property of `parsePart` for parts that contain no `-`:
the `*`, `*/step`, and single-value alternatives only produce values in
`[lo, hi]`. -/
theorem parsePart_bounds (p : List Char) (lo hi : Int) (vs : List Int)
    (hnd : p.contains '-' = false) (hok : parsePart p lo hi = .ok vs) :
    ∀ v ∈ vs, lo ≤ v ∧ v ≤ hi := by
  unfold parsePart at hok
  split at hok
  · -- "*/step"
    split at hok
    · exact absurd hok (by simp)
    · rename_i step _
      split at hok
      · exact absurd hok (by simp)
      · rename_i hstep
        have hvs : vs = rangeVals lo hi step := by
          simpa using hok.symm
        intro v hv
        exact rangeVals_bounds lo hi step v (by omega) (hvs ▸ hv)
  · split at hok
    · -- "*"
      have hvs : vs = rangeVals lo hi 1 := by simpa using hok.symm
      intro v hv
      exact rangeVals_bounds lo hi 1 v (by omega) (hvs ▸ hv)
    · split at hok
      · -- range branch: excluded by `hnd`
        rename_i hdash
        rw [hnd] at hdash
        exact absurd hdash (by simp)
      · -- single value
        split at hok
        · exact absurd hok (by simp)
        · rename_i v hbound
          split at hok
          · exact absurd hok (by simp)
          · rename_i hrange
            have hvs : vs = [v] := by simpa using hok.symm
            subst hvs
            intro w hw
            rw [List.mem_singleton] at hw
            subst hw
            omega

end Cron

/-! ## Claims about the cron evaluator -/

open Cron in
/-- C2: the claim that every produced integer is within its field's bound (and
that a part producing an out-of-bound integer is a parse error) is false:
`parsePart` never bound-checks range parts, so `"58-61 * * * *"` is accepted
with 60 and 61 in the minute set, though the minute bound is 59. -/
theorem claimC2_counterexample :
    ∃ c, ParseCron "58-61 * * * *" = .ok c ∧
      (61 : Int) ∈ c.Minutes ∧ ¬ ((61 : Int) ≤ 59) := by
  refine ⟨⟨rangeVals 58 61 1, rangeVals 0 23 1, rangeVals 1 31 1,
    rangeVals 1 12 1, rangeVals 0 6 1⟩, by decide, by decide, by decide⟩

open Cron in
/-- C2 (amended): for parts without a range (`*`, `*/step`, single values)
every produced integer lies within the field's bound, and a non-integer token,
a non-positive step, or an out-of-bound single value is a parse error naming
the offending field — in particular `"60 * * * *"` and `"1-5/0 * * * *"` are
parse errors naming the minute field.  Range parts `a-b` are not
bound-checked. -/
theorem claimC2_amended (p : List Char) (lo hi : Int) (vs : List Int)
    (hnd : p.contains '-' = false) (hok : parsePart p lo hi = .ok vs) :
    (∀ v ∈ vs, lo ≤ v ∧ v ≤ hi) ∧
    ParseCron "60 * * * *" = .error "minute field: value 60 out of range 0-59" ∧
    ParseCron "1-5/0 * * * *" = .error "minute field: invalid step: 0" :=
  ⟨parsePart_bounds p lo hi vs hnd hok, by decide, by decide⟩

open Cron in
/-- Witness for C2 (amended) at the single-value minute part `"5"`. -/
theorem claimC2_witness :
    (∀ v ∈ [(5 : Int)], 0 ≤ v ∧ v ≤ 59) ∧
    ParseCron "60 * * * *" = .error "minute field: value 60 out of range 0-59" ∧
    ParseCron "1-5/0 * * * *" = .error "minute field: invalid step: 0" :=
  claimC2_amended ['5'] 0 59 [5] (by decide) (by decide)

open Cron in
/-- C10: a range part whose start exceeds its end parses without error and
contributes no values: `rangeVals` is empty when `hi < lo`, and
`"5-3 * * * *"` parses successfully with an empty minute set, so the resulting
expression never matches any timestamp. -/
theorem claimC10 (l h step : Int) (hlt : h < l) :
    rangeVals l h step = [] ∧
    ∃ c, ParseCron "5-3 * * * *" = .ok c ∧ c.Minutes = [] ∧
      ∀ t, c.Matches t = false := by
  refine ⟨?_, ⟨[], rangeVals 0 23 1, rangeVals 1 31 1, rangeVals 1 12 1,
    rangeVals 0 6 1⟩, by decide, rfl, ?_⟩
  · have hfuel : (h + 1 - l).toNat = 0 := by omega
    rw [rangeVals, hfuel, rangeValsGo]
  · intro t
    simp [CronExpr.Matches, containsInt]

open Cron in
/-- Witness for C10 at the minute range `5-3` (start 5 exceeds end 3). -/
theorem claimC10_witness :
    rangeVals 5 3 1 = [] ∧
    ∃ c, ParseCron "5-3 * * * *" = .ok c ∧ c.Minutes = [] ∧
      ∀ t, c.Matches t = false :=
  claimC10 5 3 1 (by decide)

open Cron in
/-- C5: `Matches` is the conjunction of the five field memberships;
`"*/15 * * * *"` parses its minute field to exactly `[0, 15, 30, 45]`; and for
any valid calendar components, `"0 4 * * *"` matches exactly the timestamps
with minute 0 and hour 4 — in particular not 04:01:00 and not 03:00:00. -/
theorem claimC5 (t : GoTime)
    (hd : 1 ≤ t.Day ∧ t.Day ≤ 31) (hmo : 1 ≤ t.Month ∧ t.Month ≤ 12)
    (hw : 0 ≤ t.Weekday ∧ t.Weekday ≤ 6) :
    (∀ c : CronExpr, c.Matches t =
      (containsInt c.Minutes t.Minute && containsInt c.Hours t.Hour &&
       containsInt c.DaysOfMonth t.Day && containsInt c.Months t.Month &&
       containsInt c.DaysOfWeek t.Weekday)) ∧
    (∃ c, ParseCron "*/15 * * * *" = .ok c ∧ c.Minutes = [0, 15, 30, 45]) ∧
    (∃ c, ParseCron "0 4 * * *" = .ok c ∧
      (c.Matches t = true ↔ t.Minute = 0 ∧ t.Hour = 4) ∧
      c.Matches ⟨1, 4, 15, 6, 2⟩ = false ∧ c.Matches ⟨0, 3, 15, 6, 2⟩ = false) := by
  refine ⟨fun c => rfl,
    ⟨⟨rangeVals 0 59 15, rangeVals 0 23 1, rangeVals 1 31 1, rangeVals 1 12 1,
      rangeVals 0 6 1⟩, by decide, by decide⟩,
    ⟨⟨[0], [4], rangeVals 1 31 1, rangeVals 1 12 1, rangeVals 0 6 1⟩,
      by decide, ?_, by decide, by decide⟩⟩
  simp only [CronExpr.Matches, Bool.and_eq_true, containsInt_iff,
    mem_rangeVals_one, List.mem_singleton]
  omega

open Cron in
/-- Witness for C5 at the timestamp 04:00:00 on 2026-06-15 (a Monday-like
weekday value 2). -/
theorem claimC5_witness :
    (∀ c : CronExpr, c.Matches ⟨0, 4, 15, 6, 2⟩ =
      (containsInt c.Minutes 0 && containsInt c.Hours 4 &&
       containsInt c.DaysOfMonth 15 && containsInt c.Months 6 &&
       containsInt c.DaysOfWeek 2)) ∧
    (∃ c, ParseCron "*/15 * * * *" = .ok c ∧ c.Minutes = [0, 15, 30, 45]) ∧
    (∃ c, ParseCron "0 4 * * *" = .ok c ∧
      (c.Matches ⟨0, 4, 15, 6, 2⟩ = true ↔ (0 : Int) = 0 ∧ (4 : Int) = 4) ∧
      c.Matches ⟨1, 4, 15, 6, 2⟩ = false ∧ c.Matches ⟨0, 3, 15, 6, 2⟩ = false) :=
  claimC5 ⟨0, 4, 15, 6, 2⟩ (by decide) (by decide) (by decide)

/-! ## Claims about the stats collector -/

namespace Stats

/-- `calculateCPUPercent` with the `let`s spelled out. -/
theorem calculateCPUPercent_eq (st : DockerStatsJSON) :
    calculateCPUPercent st =
      if (u64sub st.CPUStats.SystemCPUUsage st.PreCPUStats.SystemCPUUsage : ℚ) ≤ 0 ∨
         (u64sub st.CPUStats.TotalUsage st.PreCPUStats.TotalUsage : ℚ) ≤ 0 then 0
      else
        (u64sub st.CPUStats.TotalUsage st.PreCPUStats.TotalUsage : ℚ) /
          (u64sub st.CPUStats.SystemCPUUsage st.PreCPUStats.SystemCPUUsage : ℚ) *
          (if (st.CPUStats.OnlineCPUs : ℚ) = 0 then 1 else (st.CPUStats.OnlineCPUs : ℚ)) *
          100 := rfl

end Stats

open Stats in
/-- C3: the claim that a counter reset (current cumulative counter not greater
than the previous one) yields 0 is false: the deltas are `uint64` differences,
so a reset wraps around to a huge positive delta and the guard does not fire.
Current total 0 after previous total 1 (with a positive system delta) yields a
nonzero result. -/
theorem claimC3_counterexample :
    (0 : Nat) < 1 ∧
    calculateCPUPercent ⟨⟨0, 2000000000, 1⟩, ⟨1, 1000000000, 0⟩⟩ ≠ 0 := by
  refine ⟨by decide, ?_⟩
  rw [calculateCPUPercent_eq]
  norm_num [u64sub]

open Stats in
/-- C3 (amended): the result is `(cpuDelta / systemDelta) * onlineCpus * 100`
where the deltas are `uint64` wraparound differences (never negative), and the
result is 0 exactly when either delta is 0 — which covers equal counters but
not a reset where the current counter is below the previous one.  `onlineCpus`
is treated as 1 when reported as 0.  cpuDelta=200000000,
systemDelta=1000000000, onlineCpus=4 gives 80, and systemDelta=0 gives 0. -/
theorem claimC3_amended (st : DockerStatsJSON) :
    (calculateCPUPercent st = 0 ↔
      u64sub st.CPUStats.SystemCPUUsage st.PreCPUStats.SystemCPUUsage = 0 ∨
      u64sub st.CPUStats.TotalUsage st.PreCPUStats.TotalUsage = 0) ∧
    calculateCPUPercent ⟨⟨200000000, 1000000000, 4⟩, ⟨0, 0, 0⟩⟩ = 80 ∧
    calculateCPUPercent ⟨⟨200000000, 1000000000, 7⟩, ⟨0, 1000000000, 0⟩⟩ = 0 ∧
    calculateCPUPercent ⟨⟨100, 2000000000, 0⟩, ⟨50, 1000000000, 0⟩⟩ =
      (50 : ℚ) / 1000000000 * 1 * 100 := by
  refine ⟨?_, by rw [calculateCPUPercent_eq]; norm_num [u64sub],
    by rw [calculateCPUPercent_eq]; norm_num [u64sub],
    by rw [calculateCPUPercent_eq]; norm_num [u64sub]⟩
  rw [calculateCPUPercent_eq]
  by_cases h1 : u64sub st.CPUStats.SystemCPUUsage st.PreCPUStats.SystemCPUUsage = 0
  · simp [h1]
  · by_cases h2 : u64sub st.CPUStats.TotalUsage st.PreCPUStats.TotalUsage = 0
    · simp [h2]
    · have hs : (0 : ℚ) <
          (u64sub st.CPUStats.SystemCPUUsage st.PreCPUStats.SystemCPUUsage : ℚ) :=
        Nat.cast_pos.mpr (Nat.pos_of_ne_zero h1)
      have hc : (0 : ℚ) <
          (u64sub st.CPUStats.TotalUsage st.PreCPUStats.TotalUsage : ℚ) :=
        Nat.cast_pos.mpr (Nat.pos_of_ne_zero h2)
      rw [if_neg (by push_neg; exact ⟨hs, hc⟩)]
      have hcpus : (0 : ℚ) <
          (if (st.CPUStats.OnlineCPUs : ℚ) = 0 then 1
           else (st.CPUStats.OnlineCPUs : ℚ)) := by
        split
        · norm_num
        · rename_i hoc
          exact lt_of_le_of_ne (Nat.cast_nonneg _) (Ne.symm hoc)
      have hpos : (0 : ℚ) <
          (u64sub st.CPUStats.TotalUsage st.PreCPUStats.TotalUsage : ℚ) /
            (u64sub st.CPUStats.SystemCPUUsage st.PreCPUStats.SystemCPUUsage : ℚ) *
            (if (st.CPUStats.OnlineCPUs : ℚ) = 0 then 1
             else (st.CPUStats.OnlineCPUs : ℚ)) * 100 :=
        mul_pos (mul_pos (div_pos hc hs) hcpus) (by norm_num)
      refine ⟨fun h0 => absurd h0 (ne_of_gt hpos), fun hor => ?_⟩
      rcases hor with h | h
      · exact absurd h h1
      · exact absurd h h2

open Stats in
/-- Witness for C3 (amended) at the 80-percent example input. -/
theorem claimC3_witness :
    (calculateCPUPercent ⟨⟨200000000, 1000000000, 4⟩, ⟨0, 0, 0⟩⟩ = 0 ↔
      u64sub 1000000000 0 = 0 ∨ u64sub 200000000 0 = 0) ∧
    calculateCPUPercent ⟨⟨200000000, 1000000000, 4⟩, ⟨0, 0, 0⟩⟩ = 80 ∧
    calculateCPUPercent ⟨⟨200000000, 1000000000, 7⟩, ⟨0, 1000000000, 0⟩⟩ = 0 ∧
    calculateCPUPercent ⟨⟨100, 2000000000, 0⟩, ⟨50, 1000000000, 0⟩⟩ =
      (50 : ℚ) / 1000000000 * 1 * 100 :=
  claimC3_amended ⟨⟨200000000, 1000000000, 4⟩, ⟨0, 0, 0⟩⟩

open Stats in
/-- C1: the claim that with two consecutive fan-outs to an undrained conduit
the conduit holds the most recent sample (the first being dropped) is false:
the non-blocking send drops the *new* sample when the single slot is occupied,
so the conduit keeps the first sample and a receive yields it, not the
second. -/
theorem claimC1_counterexample :
    fanOut (fanOut [(newConduit : Option Nat)] 1) 2 = [some 1] ∧
    recvFrom (trySend (trySend (newConduit : Option Nat) 1) 2) = some 1 ∧
    (some 1 : Option Nat) ≠ some 2 :=
  ⟨rfl, rfl, by decide⟩

open Stats in
/-- C1 (amended): after the collector fans out two consecutive new samples to
a subscriber conduit that is never drained, the conduit holds only the *first*
of the two samples — the second is dropped, not queued, and receiving from the
conduit yields the first sample. -/
theorem claimC1_amended {α : Type} (s1 s2 : α) :
    trySend (trySend (newConduit : Option α) s1) s2 = some s1 ∧
    recvFrom (trySend (trySend (newConduit : Option α) s1) s2) = some s1 ∧
    fanOut (fanOut [(newConduit : Option α)] s1) s2 = [some s1] :=
  ⟨rfl, rfl, rfl⟩

open Stats in
/-- Witness for C1 (amended) at the sample values 1 and 2. -/
theorem claimC1_witness :
    trySend (trySend (newConduit : Option Nat) 1) 2 = some 1 ∧
    recvFrom (trySend (trySend (newConduit : Option Nat) 1) 2) = some 1 ∧
    fanOut (fanOut [(newConduit : Option Nat)] 1) 2 = [some 1] :=
  claimC1_amended 1 2

open Stats in
/-- C7: the claim that a second `Start()` is an idempotent no-op is false:
`Collector.Start` has no already-started guard, so a second call leaves two
polling loops running (not one), and after `Stop()` the first loop — whose
cancel function was overwritten — is still running. -/
theorem claimC7_counterexample :
    (Start (Start initLoopState)).loops.length = 2 ∧
    (Start (Start initLoopState)).loops.length ≠ 1 ∧
    (Stop (Start (Start initLoopState))).loops = [0] :=
  ⟨by decide, by decide, by decide⟩

open Stats in
/-- C7 (amended): every `Start()` call spawns one more polling loop and
overwrites the stored cancel function with the new loop's, so after a second
`Start()` two loops run and `Stop()` stops only the second; the first loop can
no longer be stopped.  (`Start` never blocks: it only spawns the loop.) -/
theorem claimC7_amended (s : LoopState) :
    (Start s).loops.length = s.loops.length + 1 ∧
    (Start s).cancelTok = some s.nextTok ∧
    (Start (Start s)).loops.length = s.loops.length + 2 ∧
    (Stop (Start (Start initLoopState))).loops = [0] :=
  ⟨by simp [Start], rfl, by simp [Start], by decide⟩

open Stats in
/-- Witness for C7 (amended) at a fresh collector. -/
theorem claimC7_witness :
    (Start initLoopState).loops.length = initLoopState.loops.length + 1 ∧
    (Start initLoopState).cancelTok = some initLoopState.nextTok ∧
    (Start (Start initLoopState)).loops.length = initLoopState.loops.length + 2 ∧
    (Stop (Start (Start initLoopState))).loops = [0] :=
  claimC7_amended initLoopState

open Stats in
/-- C8: every sample a collector tick fetches, persists, caches, or fans out
belongs to a server that the tick's query returned: one whose stored status is
`running` and whose container id is non-empty, and the sample carries that
server's id. -/
theorem claimC8 {α : Type} (fetch : String → String → Option α)
    (servers : List Server) (x : String × α) (hx : x ∈ collectSamples fetch servers) :
    ∃ s ∈ servers, s.status = "running" ∧ s.containerID ≠ "" ∧ x.1 = s.id := by
  unfold collectSamples collectTargets at hx
  rw [List.mem_filterMap] at hx
  obtain ⟨s, hs, hmap⟩ := hx
  rw [List.mem_filter] at hs
  obtain ⟨hmem, hcond⟩ := hs
  rw [Bool.and_eq_true, beq_iff_eq, bne_iff_ne] at hcond
  rw [Option.map_eq_some'] at hmap
  obtain ⟨a, -, rfl⟩ := hmap
  exact ⟨s, hmem, hcond.1, hcond.2, rfl⟩

open Stats in
/-- Witness for C8: with one running server, one without a container id, and
one exited server, the emitted sample for `"a"` comes from the running one. -/
theorem claimC8_witness :
    ∃ s ∈ [Server.mk "a" "c" "running", Server.mk "b" "" "running",
      Server.mk "d" "c" "exited"],
      s.status = "running" ∧ s.containerID ≠ "" ∧ ("a", (0 : Nat)).1 = s.id :=
  claimC8 (fun _ _ => some 0)
    [Server.mk "a" "c" "running", Server.mk "b" "" "running",
      Server.mk "d" "c" "exited"]
    ("a", 0) (by decide)

/-! ## Claims about the scheduler's dispatch and tick -/

namespace Sched

open Stats

/-- The status recorded against a server id (the `status` column of the row
with that id). -/
def statusOf (servers : List Server) (sid : String) : Option String :=
  (servers.find? (fun s => s.id == sid)).map (fun s => s.status)

theorem statusOf_setStatus : ∀ (servers : List Server) (sid st : String),
    (servers.find? (fun s => s.id == sid)).isSome = true →
    statusOf (setStatus servers sid st) sid = some st := by
  intro servers sid st h
  induction servers with
  | nil => simp [List.find?] at h
  | cons s rest ih =>
      rw [statusOf, setStatus, List.map_cons]
      by_cases hid : (s.id == sid) = true
      · rw [if_pos hid]
        rw [@List.find?_cons_of_pos Server (fun s => s.id == sid)
          { s with status := st } _ hid]
        rfl
      · rw [if_neg hid]
        rw [@List.find?_cons_of_neg Server (fun s => s.id == sid) s _ hid]
        rw [@List.find?_cons_of_neg Server (fun s => s.id == sid) s rest hid] at h
        exact ih h

end Sched

open Stats Sched in
/-- C9: for the `start`, `stop`, and `restart` actions, `Scheduler.execute`
records the new status (`running`, `exited`, `running` respectively) against
the target server exactly when the lifecycle call succeeds; when it fails, the
servers table is left unchanged. -/
theorem claimC9 (o : DockerOutcome) (sid cid : String) (servers : List Server)
    (hmem : (servers.find? (fun s => s.id == sid)).isSome = true) :
    (o.startOk cid = true →
      statusOf (execute o "start" sid cid servers) sid = some "running") ∧
    (o.startOk cid = false → execute o "start" sid cid servers = servers) ∧
    (o.stopOk cid = true →
      statusOf (execute o "stop" sid cid servers) sid = some "exited") ∧
    (o.stopOk cid = false → execute o "stop" sid cid servers = servers) ∧
    (o.restartOk cid = true →
      statusOf (execute o "restart" sid cid servers) sid = some "running") ∧
    (o.restartOk cid = false → execute o "restart" sid cid servers = servers) := by
  have hstart : execute o "start" sid cid servers =
      if o.startOk cid then setStatus servers sid "running" else servers := rfl
  have hstop : execute o "stop" sid cid servers =
      if o.stopOk cid then setStatus servers sid "exited" else servers := rfl
  have hrestart : execute o "restart" sid cid servers =
      if o.restartOk cid then setStatus servers sid "running" else servers := rfl
  refine ⟨fun h => ?_, fun h => ?_, fun h => ?_, fun h => ?_, fun h => ?_, fun h => ?_⟩
  · rw [hstart, if_pos h]; exact statusOf_setStatus servers sid "running" hmem
  · rw [hstart, if_neg (by rw [h]; exact Bool.false_ne_true)]
  · rw [hstop, if_pos h]; exact statusOf_setStatus servers sid "exited" hmem
  · rw [hstop, if_neg (by rw [h]; exact Bool.false_ne_true)]
  · rw [hrestart, if_pos h]; exact statusOf_setStatus servers sid "running" hmem
  · rw [hrestart, if_neg (by rw [h]; exact Bool.false_ne_true)]

open Stats Sched in
/-- Witness for C9: one server `"a"`, an outcome where stop fails and
start/restart succeed. -/
theorem claimC9_witness :
    ((⟨fun _ => true, fun _ => false, fun _ => true, fun _ => true⟩ :
        DockerOutcome).startOk "c" = true →
      statusOf (execute ⟨fun _ => true, fun _ => false, fun _ => true, fun _ => true⟩
        "start" "a" "c" [Server.mk "a" "c" "exited"]) "a" = some "running") ∧
    ((⟨fun _ => true, fun _ => false, fun _ => true, fun _ => true⟩ :
        DockerOutcome).startOk "c" = false →
      execute ⟨fun _ => true, fun _ => false, fun _ => true, fun _ => true⟩
        "start" "a" "c" [Server.mk "a" "c" "exited"] = [Server.mk "a" "c" "exited"]) ∧
    ((⟨fun _ => true, fun _ => false, fun _ => true, fun _ => true⟩ :
        DockerOutcome).stopOk "c" = true →
      statusOf (execute ⟨fun _ => true, fun _ => false, fun _ => true, fun _ => true⟩
        "stop" "a" "c" [Server.mk "a" "c" "exited"]) "a" = some "exited") ∧
    ((⟨fun _ => true, fun _ => false, fun _ => true, fun _ => true⟩ :
        DockerOutcome).stopOk "c" = false →
      execute ⟨fun _ => true, fun _ => false, fun _ => true, fun _ => true⟩
        "stop" "a" "c" [Server.mk "a" "c" "exited"] = [Server.mk "a" "c" "exited"]) ∧
    ((⟨fun _ => true, fun _ => false, fun _ => true, fun _ => true⟩ :
        DockerOutcome).restartOk "c" = true →
      statusOf (execute ⟨fun _ => true, fun _ => false, fun _ => true, fun _ => true⟩
        "restart" "a" "c" [Server.mk "a" "c" "exited"]) "a" = some "running") ∧
    ((⟨fun _ => true, fun _ => false, fun _ => true, fun _ => true⟩ :
        DockerOutcome).restartOk "c" = false →
      execute ⟨fun _ => true, fun _ => false, fun _ => true, fun _ => true⟩
        "restart" "a" "c" [Server.mk "a" "c" "exited"] = [Server.mk "a" "c" "exited"]) :=
  claimC9 ⟨fun _ => true, fun _ => false, fun _ => true, fun _ => true⟩
    "a" "c" [Server.mk "a" "c" "exited"] (by decide)

namespace Sched

theorem foldl_preserves {β γ : Type} (f : β → γ → β) (P : β → Prop)
    (hpres : ∀ b a, P b → P (f b a)) :
    ∀ (l : List γ) (b : β), P b → P (l.foldl f b) := by
  intro l
  induction l with
  | nil => exact fun b hb => hb
  | cons a l ih => exact fun b hb => ih (f b a) (hpres b a hb)

theorem foldl_reach {β γ : Type} (f : β → γ → β) (P : β → Prop) (j : γ)
    (hpres : ∀ b a, P b → P (f b a)) (hset : ∀ b, P (f b j))
    (l1 l2 : List γ) (b : β) : P ((l1 ++ j :: l2).foldl f b) := by
  rw [List.foldl_append, List.foldl_cons]
  exact foldl_preserves f P hpres l2 _ (hset _)

/-- `tickStep` on a job whose cron expression does not parse: the job is
logged and skipped. -/
theorem tickStep_err (o : DockerOutcome) (now : Cron.GoTime) (acc : DB) (j : Job)
    (e : String) (hp : Cron.ParseCron j.cronExpr = .error e) :
    tickStep o now acc j = acc := by
  unfold tickStep
  rw [hp]

/-- `tickStep` on a job whose cron expression parses but does not match. -/
theorem tickStep_nomatch (o : DockerOutcome) (now : Cron.GoTime) (acc : DB) (j : Job)
    (cron : Cron.CronExpr) (hp : Cron.ParseCron j.cronExpr = .ok cron)
    (hm : ¬cron.Matches now = true) :
    tickStep o now acc j = acc := by
  unfold tickStep
  rw [hp]
  simp [hm]

/-- `tickStep` on a job whose cron expression parses and matches `now`. -/
theorem tickStep_match (o : DockerOutcome) (now : Cron.GoTime) (acc : DB) (j : Job)
    (cron : Cron.CronExpr) (hp : Cron.ParseCron j.cronExpr = .ok cron)
    (hm : cron.Matches now = true) :
    tickStep o now acc j =
      { servers := execute o j.action j.serverID j.containerID acc.servers
        schedules := acc.schedules.map
          (fun sch => if sch.id == j.scheduleID then { sch with lastRun := some now }
            else sch) } := by
  unfold tickStep
  rw [hp]
  simp [hm]

end Sched

open Cron Stats Sched in
/-- C4: in an evaluation pass, every enabled schedule (joined with an existing
server row) whose cron expression parses and matches the pass timestamp gets
its `last_run` stamped with that timestamp — for *every* outcome `o` of the
dispatched actions, i.e. regardless of action success or failure.  `tick` is a
total function into the new table state: no action error reaches a caller. -/
theorem claimC4 (o : DockerOutcome) (now : GoTime) (db : DB) (sch : SchedRow)
    (cron : CronExpr) (hmem : sch ∈ db.schedules) (hen : sch.enabled = true)
    (hsrv : ∃ srv ∈ db.servers, srv.id = sch.serverID)
    (hparse : ParseCron sch.cronExpr = .ok cron) (hmatch : cron.Matches now = true) :
    ∀ row ∈ (tick o now db).schedules, row.id = sch.id → row.lastRun = some now := by
  obtain ⟨srv, hsrvmem, hsrvid⟩ := hsrv
  have hj : (⟨sch.id, sch.serverID, sch.cronExpr, sch.action, srv.containerID⟩ : Job) ∈
      tickJobs db := by
    rw [tickJobs, List.mem_flatMap]
    refine ⟨sch, ?_, ?_⟩
    · rw [List.mem_filter]; exact ⟨hmem, hen⟩
    · rw [List.mem_map]
      refine ⟨srv, ?_, rfl⟩
      rw [List.mem_filter]
      exact ⟨hsrvmem, by rw [beq_iff_eq]; exact hsrvid⟩
  obtain ⟨l1, l2, hsplit⟩ := List.append_of_mem hj
  have hpres : ∀ d jj,
      (∀ row ∈ d.schedules, row.id = sch.id → row.lastRun = some now) →
      ∀ row ∈ (tickStep o now d jj).schedules, row.id = sch.id →
        row.lastRun = some now := by
    intro d jj hPd
    cases hpc : ParseCron jj.cronExpr with
    | error e => rw [tickStep_err o now d jj e hpc]; exact hPd
    | ok c =>
        by_cases hm : c.Matches now = true
        · rw [tickStep_match o now d jj c hpc hm]
          intro row hrow hrid
          rw [List.mem_map] at hrow
          obtain ⟨r, hr, rfl⟩ := hrow
          by_cases hreq : (r.id == jj.scheduleID) = true
          · rw [if_pos hreq]
          · rw [if_neg hreq] at hrid ⊢
            exact hPd r hr hrid
        · rw [tickStep_nomatch o now d jj c hpc hm]; exact hPd
  have hset : ∀ d : DB,
      ∀ row ∈ (tickStep o now d
        ⟨sch.id, sch.serverID, sch.cronExpr, sch.action, srv.containerID⟩).schedules,
        row.id = sch.id → row.lastRun = some now := by
    intro d
    rw [tickStep_match o now d _ cron hparse hmatch]
    intro row hrow hrid
    rw [List.mem_map] at hrow
    obtain ⟨r, hr, rfl⟩ := hrow
    by_cases hreq : (r.id == sch.id) = true
    · rw [if_pos hreq]
    · rw [if_neg hreq] at hrid ⊢
      exact absurd (beq_iff_eq.mpr hrid) hreq
  rw [tick, hsplit]
  exact foldl_reach (tickStep o now)
    (fun d => ∀ row ∈ d.schedules, row.id = sch.id → row.lastRun = some now)
    _ hpres hset l1 l2 db

open Cron Stats Sched in
/-- Witness for C4: a single every-minute schedule whose `start` action fails
(`o` rejects everything) still gets `last_run` stamped with the tick time. -/
theorem claimC4_witness :
    SchedRow.mk "s1" "a" "* * * * *" "start" true (some ⟨30, 4, 15, 6, 2⟩) ∈
      (tick ⟨fun _ => false, fun _ => false, fun _ => false, fun _ => false⟩
        ⟨30, 4, 15, 6, 2⟩
        ⟨[Server.mk "a" "c" "exited"],
         [SchedRow.mk "s1" "a" "* * * * *" "start" true none]⟩).schedules ∧
    (SchedRow.mk "s1" "a" "* * * * *" "start" true
        (some ⟨30, 4, 15, 6, 2⟩)).lastRun = some ⟨30, 4, 15, 6, 2⟩ :=
  ⟨by decide,
    claimC4 ⟨fun _ => false, fun _ => false, fun _ => false, fun _ => false⟩
      ⟨30, 4, 15, 6, 2⟩
      ⟨[Server.mk "a" "c" "exited"],
       [SchedRow.mk "s1" "a" "* * * * *" "start" true none]⟩
      (SchedRow.mk "s1" "a" "* * * * *" "start" true none)
      ⟨rangeVals 0 59 1, rangeVals 0 23 1, rangeVals 1 31 1, rangeVals 1 12 1,
        rangeVals 0 6 1⟩
      (by decide) rfl ⟨Server.mk "a" "c" "exited", by decide, rfl⟩
      (by decide) (by decide)
      (SchedRow.mk "s1" "a" "* * * * *" "start" true (some ⟨30, 4, 15, 6, 2⟩))
      (by decide) rfl⟩

/-! ## Claims about the console bridge -/

namespace Console

theorem pumpNonTTY_cons (a b c d e f g h : Nat) (t : List Nat) :
    pumpNonTTY (a :: b :: c :: d :: e :: f :: g :: h :: t) =
      (if bigEndian4 e f g h = 0 then pumpNonTTY t
       else if t.length < bigEndian4 e f g h then ([], t.isEmpty)
       else (t.take (bigEndian4 e f g h) ::
              (pumpNonTTY (t.drop (bigEndian4 e f g h))).1,
             (pumpNonTTY (t.drop (bigEndian4 e f g h))).2)) := by
  rw [pumpNonTTY.eq_def]

theorem pumpNonTTY_short (s : List Nat) (h1 : s ≠ []) (h2 : s.length < 8) :
    pumpNonTTY s = ([], false) := by
  rcases s with _ | ⟨b0, s⟩
  · exact absurd rfl h1
  rcases s with _ | ⟨b1, s⟩
  · simp [pumpNonTTY]
  rcases s with _ | ⟨b2, s⟩
  · simp [pumpNonTTY]
  rcases s with _ | ⟨b3, s⟩
  · simp [pumpNonTTY]
  rcases s with _ | ⟨b4, s⟩
  · simp [pumpNonTTY]
  rcases s with _ | ⟨b5, s⟩
  · simp [pumpNonTTY]
  rcases s with _ | ⟨b6, s⟩
  · simp [pumpNonTTY]
  rcases s with _ | ⟨b7, s⟩
  · simp [pumpNonTTY]
  simp at h2
  omega

theorem bigEndian4_encode (n : Nat) (h : n < 2 ^ 32) :
    bigEndian4 (n / 2 ^ 24 % 256) (n / 2 ^ 16 % 256) (n / 2 ^ 8 % 256) (n % 256) = n := by
  rw [bigEndian4]; omega

/-- Demultiplexing a well-formed frame sequence followed by any trailing
bytes: the frames' non-empty payloads are forwarded in order, then the pump
continues on the trailer. -/
theorem pump_encodeFrames (fs : List (Nat × List Nat))
    (hlen : ∀ f ∈ fs, f.2.length < 2 ^ 32) (rest : List Nat) :
    pumpNonTTY (encodeFrames fs ++ rest) =
      (nonEmptyPayloads fs ++ (pumpNonTTY rest).1, (pumpNonTTY rest).2) := by
  induction fs with
  | nil => simp [encodeFrames, nonEmptyPayloads]
  | cons f fs ih =>
      obtain ⟨t, p⟩ := f
      have hp : p.length < 2 ^ 32 := hlen ⟨t, p⟩ (List.mem_cons_self _ _)
      have hrec : ∀ g ∈ fs, g.2.length < 2 ^ 32 :=
        fun g hg => hlen g (List.mem_cons_of_mem _ hg)
      show pumpNonTTY ((encodeFrame t p ++ encodeFrames fs) ++ rest) = _
      rw [encodeFrame]
      simp only [List.cons_append, List.nil_append, List.append_assoc]
      rw [pumpNonTTY_cons]
      rw [bigEndian4_encode p.length hp]
      by_cases hpe : p.length = 0
      · have hpnil : p = [] := List.length_eq_zero.mp hpe
        subst hpnil
        rw [if_pos hpe]
        simp only [List.nil_append]
        rw [ih hrec]
        simp [nonEmptyPayloads]
      · rw [if_neg hpe]
        have hge : ¬((p ++ (encodeFrames fs ++ rest)).length < p.length) := by
          rw [List.length_append]; omega
        rw [if_neg hge]
        rw [List.take_left, List.drop_left]
        rw [ih hrec]
        have hpnil : p ≠ [] := fun hn => hpe (by rw [hn]; rfl)
        simp [nonEmptyPayloads, hpnil]

end Console

open Console in
/-- C6: the non-TTY outbound pump forwards exactly the non-empty payloads of
the framed stream, in order, with no header bytes, and ends cleanly at
end-of-stream; a trailing short header (1-7 bytes) ends the pump as an error
after the preceding payloads were forwarded.  The concrete stream
`[1,0,0,0,0,0,0,5] ++ "hello" ++ [2,0,0,0,0,0,0,3] ++ "err"` yields exactly
the two messages `"hello"` then `"err"`. -/
theorem claimC6 (fs : List (Nat × List Nat)) (hlen : ∀ f ∈ fs, f.2.length < 2 ^ 32)
    (short : List Nat) (hs1 : short ≠ []) (hs2 : short.length < 8) :
    pumpNonTTY (encodeFrames fs) = (nonEmptyPayloads fs, true) ∧
    pumpNonTTY (encodeFrames fs ++ short) = (nonEmptyPayloads fs, false) ∧
    pumpNonTTY [1, 0, 0, 0, 0, 0, 0, 5, 104, 101, 108, 108, 111,
      2, 0, 0, 0, 0, 0, 0, 3, 101, 114, 114] =
      ([[104, 101, 108, 108, 111], [101, 114, 114]], true) := by
  refine ⟨?_, ?_, ?_⟩
  · rw [show encodeFrames fs = encodeFrames fs ++ [] from (List.append_nil _).symm]
    rw [pump_encodeFrames fs hlen []]
    simp [pumpNonTTY]
  · rw [pump_encodeFrames fs hlen short, pumpNonTTY_short short hs1 hs2]
    simp
  · have henc : ([1, 0, 0, 0, 0, 0, 0, 5, 104, 101, 108, 108, 111,
        2, 0, 0, 0, 0, 0, 0, 3, 101, 114, 114] : List Nat) =
        encodeFrames [(1, [104, 101, 108, 108, 111]), (2, [101, 114, 114])] ++ [] := by
      decide
    rw [henc, pump_encodeFrames _ (by decide) []]
    simp [pumpNonTTY, nonEmptyPayloads]

open Console in
/-- Witness for C6 at the two-frame hello/err stream with trailer `[7]`. -/
theorem claimC6_witness :
    pumpNonTTY (encodeFrames [(1, [104, 101, 108, 108, 111]), (2, [101, 114, 114])]) =
      (nonEmptyPayloads [(1, [104, 101, 108, 108, 111]), (2, [101, 114, 114])], true) ∧
    pumpNonTTY (encodeFrames [(1, [104, 101, 108, 108, 111]), (2, [101, 114, 114])] ++
        [7]) =
      (nonEmptyPayloads [(1, [104, 101, 108, 108, 111]), (2, [101, 114, 114])], false) ∧
    pumpNonTTY [1, 0, 0, 0, 0, 0, 0, 5, 104, 101, 108, 108, 111,
      2, 0, 0, 0, 0, 0, 0, 3, 101, 114, 114] =
      ([[104, 101, 108, 108, 111], [101, 114, 114]], true) :=
  claimC6 [(1, [104, 101, 108, 108, 111]), (2, [101, 114, 114])] (by decide)
    [7] (by decide) (by decide)

end ReedOut
